import Mathlib

/-!
Verification of the P-256 Lua binding (src/src/zen_p256.c).

The binding layer is embedded shallowly:
* an `Octet` is a Zenroom octet: its buffer contents (`val`) and its
  logical length (`len`);
* the external curve engine (p256-m: `p256_uncompress_publickey`,
  `p256_compress_publickey`, `p256_validate_pubkey`, `p256_ecdsa_sign`,
  `p256_ecdsa_verify`, `p256_gen_keypair`) is a parameter `Engine`, each
  routine returning its C int return code together with the bytes it
  writes into the caller-supplied output buffer;
* the SHA-256 primitive (HASH256_init / HASH256_process / HASH256_hash)
  is a parameter `HashPrim`: an abstract streaming state machine;
* each Lua C function returns a `LuaOut` (the value it pushes and returns,
  or the message it throws via THROW, or `noResult` when it returns with
  neither) paired with the list of curve-engine calls it made, in order.

Allocation of octets (o_new / o_alloc) is modelled as always succeeding;
uninitialized buffer bytes are modelled as 0 (no claim depends on them).
-/

/-- A Zenroom octet: buffer bytes and logical length. -/
structure Octet where
  val : List Nat
  len : Nat
deriving Repr, DecidableEq

/-- One call into the external curve engine, with the arguments passed. -/
inductive EngCall where
  | uncompressCall : List Nat → EngCall
  | compressCall : List Nat → EngCall
  | validateCall : List Nat → EngCall
  | signCall : Option Octet → List Nat → List Nat → EngCall
  | verifyCall : List Nat → List Nat → List Nat → EngCall
  | keypairCall : EngCall
deriving Repr, DecidableEq

/-- The external curve engine (p256-m).  Each routine yields its C return
code (0 = success) and, where the C routine writes an output buffer, the
bytes written.  `genKeypair` stands for one run of `p256_gen_keypair`:
return code, the 32 secret bytes and the 64 public bytes it writes. -/
structure Engine where
  uncompress : List Nat → Int × List Nat
  compress : List Nat → Int × List Nat
  validate : List Nat → Int
  ecdsaSign : Option Octet → List Nat → List Nat → Int × List Nat
  ecdsaVerify : List Nat → List Nat → List Nat → Int
  genKeypair : Int × List Nat × List Nat

/-- Abstract streaming hash primitive (HASH256): an initial state, a
per-byte step, and finalization to the digest bytes. -/
structure HashPrim (σ : Type) where
  start : σ
  step : σ → Nat → σ
  final : σ → List Nat

/-- Result of one Lua C function: the value pushed and returned, a THROW
with its message, or a return with neither (the stack garbage path). -/
inductive LuaOut (α : Type) where
  | ok : α → LuaOut α
  | thrown : String → LuaOut α
  | noResult : LuaOut α
deriving Repr, DecidableEq

/-- Contents of a fixed-size output buffer of n bytes after the engine
wrote `l` into it: byte i is l i, missing bytes modelled as 0. -/
def padBuf (n : Nat) (l : List Nat) : List Nat :=
  (List.range n).map (fun i => l.getD i 0)

/-- Error message at zen_p256.c line 66. -/
def msgBadLongPk : String := "Invalid long public key prefix: 0x04 expected"

/-- Error message at zen_p256.c line 77. -/
def msgBadCompPk : String := "Invalid compressed public key prefix: 0x02 or 0x03 expected"

/-- Error message at zen_p256.c line 86. -/
def msgBadPkLen : String := "Invalid public key length"

/-- Error message at zen_p256.c line 189. -/
def msgBadSkSize : String := "Invalid size for ECDSA secret key"

/-- Error message at zen_p256.c line 255. -/
def msgBadSigSize : String := "Invalid size for P256 signature"

/-- Error message at zen_p256.c line 217. -/
def msgSignFail : String := "Could not sign message"

/-- Error message at zen_p256.c line 332. -/
def msgCompressFail : String := "Could not compress public key"

/-- Result of allocate_raw_public_key: its int return value, the contents
of *res_pk after the call, the value of *failed_msg after the call, and
the engine calls made. -/
structure AllocResult where
  ret : Int
  res_pk : Octet
  failed_msg : Option String
  trace : List EngCall
deriving Repr, DecidableEq

/-- The freshly o_alloc-ed 64-byte raw-key buffer with len set to PK_SIZE,
before anything is copied into it. -/
def zeroRaw : Octet := ⟨List.replicate 64 0, 64⟩

/-- allocate_raw_public_key (zen_p256.c lines 45-88).  Dispatch on pk->len:
64 copies the 64 bytes through; 65 requires first byte 0x04 and copies
bytes 1..65; 33 requires first byte 0x02 or 0x03 and calls
p256_uncompress_publickey, returning its code directly — note the source
leaves *failed_msg NULL on that path; any other length fails.  The copy
loops move exactly the first 64 (resp. bytes 1..64) buffer bytes. -/
def allocate_raw_public_key (eng : Engine) (pk : Octet) : AllocResult :=
  if pk.len = 64 then
    { ret := 0, res_pk := ⟨pk.val.take 64, 64⟩, failed_msg := none, trace := [] }
  else if pk.len = 65 then
    if pk.val.getD 0 0 ≠ 4 then
      { ret := 1, res_pk := zeroRaw, failed_msg := some msgBadLongPk, trace := [] }
    else
      { ret := 0, res_pk := ⟨(pk.val.drop 1).take 64, 64⟩, failed_msg := none, trace := [] }
  else if pk.len = 33 then
    if pk.val.getD 0 0 ≠ 2 ∧ pk.val.getD 0 0 ≠ 3 then
      { ret := 1, res_pk := zeroRaw, failed_msg := some msgBadCompPk, trace := [] }
    else
      { ret := (eng.uncompress pk.val).1,
        res_pk := ⟨padBuf 64 (eng.uncompress pk.val).2, 64⟩,
        failed_msg := none,
        trace := [EngCall.uncompressCall pk.val] }
  else
    { ret := 1, res_pk := zeroRaw, failed_msg := some msgBadPkLen, trace := [] }

/-- p256_pubcheck (zen_p256.c lines 150-163): normalize, then push the
boolean p256_validate_pubkey(raw) == 0.  When normalization returned
nonzero, THROW only if failed_msg was set; otherwise the function
returns with no pushed result. -/
def p256_pubcheck (eng : Engine) (pk : Octet) : LuaOut Bool × List EngCall :=
  let a := allocate_raw_public_key eng pk
  if a.ret ≠ 0 then
    (match a.failed_msg with
     | some s => LuaOut.thrown s
     | none => LuaOut.noResult, a.trace)
  else
    (LuaOut.ok (eng.validate a.res_pk.val == 0),
     a.trace ++ [EngCall.validateCall a.res_pk.val])

/-- Digest computed by p256_sign (zen_p256.c lines 190-195): HASH256_init,
then HASH256_process on m->val[i] for i = 0 .. m->len-1, then HASH256_hash. -/
def signDigest {σ : Type} (hp : HashPrim σ) (m : Octet) : List Nat :=
  hp.final ((List.range m.len).foldl (fun st i => hp.step st (m.val.getD i 0)) hp.start)

/-- Digest computed by p256_verify (zen_p256.c lines 257-262): HASH256_init,
then HASH256_process on m->val[i] for i = 0 .. m->len-1, then HASH256_hash. -/
def verifyDigest {σ : Type} (hp : HashPrim σ) (m : Octet) : List Nat :=
  hp.final ((List.range m.len).foldl (fun st i => hp.step st (m.val.getD i 0)) hp.start)

/-- p256_sign (zen_p256.c lines 165-230).  k is the optional third argument
(the ephemeral), passed to p256_ecdsa_sign as the octet pointer, unchanged
and unexamined by this layer. -/
def p256_sign {σ : Type} (eng : Engine) (hp : HashPrim σ) (sk m : Octet)
    (k : Option Octet) : LuaOut Octet × List EngCall :=
  if sk.len ≠ 32 then
    (LuaOut.thrown msgBadSkSize, [])
  else
    let hash := signDigest hp m
    let r := eng.ecdsaSign k sk.val hash
    if r.1 ≠ 0 then
      (LuaOut.thrown msgSignFail, [EngCall.signCall k sk.val hash])
    else
      (LuaOut.ok ⟨padBuf 64 r.2, 64⟩, [EngCall.signCall k sk.val hash])

/-- p256_verify (zen_p256.c lines 232-276): normalize the key (THROW only
when failed_msg set, else return with nothing pushed), check the signature
length, hash the message, push the boolean p256_ecdsa_verify(...) == 0. -/
def p256_verify {σ : Type} (eng : Engine) (hp : HashPrim σ) (pk m sig : Octet) :
    LuaOut Bool × List EngCall :=
  let a := allocate_raw_public_key eng pk
  if a.ret ≠ 0 then
    (match a.failed_msg with
     | some s => LuaOut.thrown s
     | none => LuaOut.noResult, a.trace)
  else if sig.len ≠ 64 then
    (LuaOut.thrown msgBadSigSize, a.trace)
  else
    let hash := verifyDigest hp m
    (LuaOut.ok (eng.ecdsaVerify sig.val a.res_pk.val hash == 0),
     a.trace ++ [EngCall.verifyCall sig.val a.res_pk.val hash])

/-- p256_pub_xy (zen_p256.c lines 278-310): normalize, then copy raw bytes
0..31 into x and 32..63 into y, each an o_new(33) buffer whose 33rd byte
keeps its initial value (the terminator store at val[33] is outside the
33-byte buffer and does not change it); each len is set to 32. -/
def p256_pub_xy (eng : Engine) (pk : Octet) : LuaOut (Octet × Octet) × List EngCall :=
  let a := allocate_raw_public_key eng pk
  if a.ret ≠ 0 then
    (match a.failed_msg with
     | some s => LuaOut.thrown s
     | none => LuaOut.noResult, a.trace)
  else
    let x : Octet := ⟨a.res_pk.val.take 32 ++ [0], 32⟩
    let y : Octet := ⟨(a.res_pk.val.drop 32).take 32 ++ [0], 32⟩
    (LuaOut.ok (x, y), a.trace)

/-- p256_compress_pub (zen_p256.c lines 318-341): normalize, then call
p256_compress_publickey into an o_new(33) buffer with len 33; THROW on
nonzero engine code. -/
def p256_compress_pub (eng : Engine) (pk : Octet) : LuaOut Octet × List EngCall :=
  let a := allocate_raw_public_key eng pk
  if a.ret ≠ 0 then
    (match a.failed_msg with
     | some s => LuaOut.thrown s
     | none => LuaOut.noResult, a.trace)
  else
    let r := eng.compress a.res_pk.val
    if r.1 ≠ 0 then
      (LuaOut.thrown msgCompressFail, a.trace ++ [EngCall.compressCall a.res_pk.val])
    else
      (LuaOut.ok ⟨padBuf 33 r.2, 33⟩, a.trace ++ [EngCall.compressCall a.res_pk.val])

/-- p256_keygen (zen_p256.c lines 90-103): o_new a 32-byte secret octet,
call p256_gen_keypair writing the secret into it and the public key into a
local buffer that is never pushed; END(1) returns the single pushed octet.
The engine return code is ignored by the source.  The returned list holds
the Lua values the call returns. -/
def p256_keygen (eng : Engine) : LuaOut (List Octet) × List EngCall :=
  (LuaOut.ok [⟨padBuf 32 eng.genKeypair.2.1, 32⟩], [EngCall.keypairCall])

/-- The Lua values a call returned (empty when it threw or pushed nothing). -/
def returnedVals (r : LuaOut (List Octet)) : List Octet :=
  match r with
  | LuaOut.ok vs => vs
  | _ => []

/-- Whether a trace event is a call into the engine ECDSA verify routine. -/
def EngCall.isVerifyCall : EngCall → Bool
  | EngCall.verifyCall _ _ _ => true
  | _ => false

/-- Whether a trace event is a call into the engine ECDSA sign routine. -/
def EngCall.isSignCall : EngCall → Bool
  | EngCall.signCall _ _ _ => true
  | _ => false

/-- A concrete engine used to evaluate the binding on closed inputs. -/
def engT : Engine :=
  { uncompress := fun _ => (0, List.replicate 64 5),
    compress := fun _ => (0, 2 :: List.replicate 32 0),
    validate := fun _ => 0,
    ecdsaSign := fun _ _ _ => (0, List.replicate 64 7),
    ecdsaVerify := fun _ _ _ => 1,
    genKeypair := (0, List.replicate 32 3, List.replicate 64 4) }

/-- engT with a decompression routine that reports failure. -/
def engFailUncomp : Engine := { engT with uncompress := fun _ => (1, []) }

/-- engT with a keypair generation run whose return code reports failure. -/
def engRngFail : Engine :=
  { engT with genKeypair := (1, List.replicate 32 0, List.replicate 64 0) }

/-- engT with a decompression routine inverting its compression routine. -/
def engRT : Engine := { engT with uncompress := fun _ => (0, List.replicate 64 1) }

/-- A trivial concrete hash primitive over the unit state. -/
def hpT : HashPrim Unit := ⟨(), fun _ _ => (), fun _ => List.replicate 32 0⟩

/-- A 64-byte raw public key input. -/
def pkRaw : Octet := ⟨List.replicate 64 9, 64⟩

/-- A 65-byte input whose first byte is 0x01. -/
def pkBad65 : Octet := ⟨1 :: List.replicate 64 0, 65⟩

/-- A 33-byte input whose first byte is 0x00. -/
def pkBad33 : Octet := ⟨0 :: List.replicate 32 0, 33⟩

/-- A 10-byte input. -/
def pk10 : Octet := ⟨List.replicate 10 0, 10⟩

/-- A well-formed 33-byte compressed key input with prefix byte 0x02. -/
def pkComp33 : Octet := ⟨2 :: List.replicate 32 7, 33⟩

/-- A 64-byte raw public key of all-1 bytes, used for the round trip. -/
def pkOnes : Octet := ⟨List.replicate 64 1, 64⟩

/-- The empty message. -/
def mEmpty : Octet := ⟨[], 0⟩

/-- A 64-byte signature input. -/
def sig64 : Octet := ⟨List.replicate 64 8, 64⟩

/-- A 16-byte secret key input. -/
def sk16 : Octet := ⟨List.replicate 16 2, 16⟩

/-- A 32-byte secret key input. -/
def sk32 : Octet := ⟨List.replicate 32 2, 32⟩

/-- A 32-byte ephemeral input. -/
def eph32 : Octet := ⟨List.replicate 32 6, 32⟩

/-! Helper lemmas about the normalizer. -/

/-- A buffer the engine filled completely holds exactly the engine bytes. -/
theorem padBuf_eq_self (n : Nat) (l : List Nat) (h : l.length = n) :
    padBuf n l = l := by
  subst h
  apply List.ext_getElem
  · simp [padBuf]
  · intro i h1 h2
    simp only [padBuf, List.getElem_map, List.getElem_range]
    exact List.getD_eq_getElem l 0 h2

/-- The first byte of a nonempty engine-filled buffer is the engine's. -/
theorem padBuf_getD_zero (n : Nat) (l : List Nat) (h : 0 < n) :
    (padBuf n l).getD 0 0 = l.getD 0 0 := by
  have : (0 : Nat) < (padBuf n l).length := by simpa [padBuf]
  rw [List.getD_eq_getElem _ _ this]
  simp [padBuf]

/-- Whenever allocate_raw_public_key sets *failed_msg, it returns 1. -/
theorem alloc_msg_ret (eng : Engine) (pk : Octet) (s : String)
    (h : (allocate_raw_public_key eng pk).failed_msg = some s) :
    (allocate_raw_public_key eng pk).ret = 1 := by
  unfold allocate_raw_public_key at h ⊢
  split at h
  · simp_all
  · split at h
    · split at h <;> simp_all
    · split at h
      · split at h <;> simp_all
      · simp_all

/-- The normalizer never calls the engine ECDSA verify routine. -/
theorem alloc_trace_no_verify (eng : Engine) (pk : Octet) :
    ((allocate_raw_public_key eng pk).trace.any EngCall.isVerifyCall) = false := by
  unfold allocate_raw_public_key
  split
  · rfl
  · split
    · split <;> rfl
    · split
      · split <;> rfl
      · rfl

/-- When the normalizer succeeds on a well-formed octet, the raw buffer
holds exactly 64 bytes. -/
theorem alloc_res_len (eng : Engine) (pk : Octet)
    (hwf : pk.val.length = pk.len)
    (hok : (allocate_raw_public_key eng pk).ret = 0) :
    (allocate_raw_public_key eng pk).res_pk.val.length = 64 := by
  unfold allocate_raw_public_key at hok ⊢
  split at hok
  · simp_all
  · split at hok
    · split at hok
      · simp_all
      · simp_all
    · split at hok
      · split at hok
        · simp_all
        · split
          · simp_all
          · simp_all [padBuf]
      · simp_all

/-! Claim theorems. -/

/-- C1: the public-key normalizer dispatches purely on length and prefix:
a 64-byte input is copied through unchanged; a 65-byte input requires
first byte 0x04, failing with the invalid-encoding prefix message
otherwise, and on success yields bytes 1..65; a 33-byte input requires
first byte 0x02 or 0x03, failing with the invalid-encoding prefix message
otherwise, and on success delegates to the engine decompression routine;
any other length fails with the invalid-key-length message. -/
theorem c1_normalize_dispatch (eng : Engine) (pk : Octet)
    (hwf : pk.val.length = pk.len) :
    (pk.len = 64 → allocate_raw_public_key eng pk =
      { ret := 0, res_pk := ⟨pk.val, 64⟩, failed_msg := none, trace := [] })
    ∧ (pk.len = 65 → pk.val.getD 0 0 ≠ 4 → allocate_raw_public_key eng pk =
      { ret := 1, res_pk := zeroRaw, failed_msg := some msgBadLongPk, trace := [] })
    ∧ (pk.len = 65 → pk.val.getD 0 0 = 4 → allocate_raw_public_key eng pk =
      { ret := 0, res_pk := ⟨pk.val.drop 1, 64⟩, failed_msg := none, trace := [] })
    ∧ (pk.len = 33 → pk.val.getD 0 0 ≠ 2 → pk.val.getD 0 0 ≠ 3 →
      allocate_raw_public_key eng pk =
      { ret := 1, res_pk := zeroRaw, failed_msg := some msgBadCompPk, trace := [] })
    ∧ (pk.len = 33 → (pk.val.getD 0 0 = 2 ∨ pk.val.getD 0 0 = 3) →
      allocate_raw_public_key eng pk =
      { ret := (eng.uncompress pk.val).1,
        res_pk := ⟨padBuf 64 (eng.uncompress pk.val).2, 64⟩,
        failed_msg := none, trace := [EngCall.uncompressCall pk.val] })
    ∧ (pk.len ≠ 64 → pk.len ≠ 65 → pk.len ≠ 33 →
      allocate_raw_public_key eng pk =
      { ret := 1, res_pk := zeroRaw, failed_msg := some msgBadPkLen, trace := [] }) := by
  refine ⟨?_, ?_, ?_, ?_, ?_, ?_⟩
  · intro h64
    have ht : pk.val.take 64 = pk.val :=
      List.take_of_length_le (by rw [hwf, h64])
    simp [allocate_raw_public_key, h64, ht]
  · intro h65 hp
    simp only [List.getD_eq_getElem?_getD] at hp
    simp [allocate_raw_public_key, h65, hp]
  · intro h65 hp
    simp only [List.getD_eq_getElem?_getD] at hp
    have hlen : pk.val.length = 65 := by rw [hwf, h65]
    have ht : (pk.val.drop 1).take 64 = pk.val.drop 1 :=
      List.take_of_length_le (by simp only [List.length_drop]; omega)
    simp [allocate_raw_public_key, h65, hp, ht]
    omega
  · intro h33 hp2 hp3
    simp only [List.getD_eq_getElem?_getD] at hp2 hp3
    simp [allocate_raw_public_key, h33, hp2, hp3]
  · intro h33 hp
    simp only [List.getD_eq_getElem?_getD] at hp
    have hcond : ¬(pk.val.getD 0 0 ≠ 2 ∧ pk.val.getD 0 0 ≠ 3) := by
      simp only [List.getD_eq_getElem?_getD]
      rcases hp with h | h <;> simp [h]
    simp only [allocate_raw_public_key, h33, if_neg hcond]
    simp
  · intro h64 h65 h33
    simp [allocate_raw_public_key, h64, h65, h33]

/-- Witness for C1 at the concrete rejection inputs of the spec: a 65-byte
input starting 0x01, a 33-byte input starting 0x00, a 10-byte input, and a
64-byte input copied through. -/
theorem c1_normalize_dispatch_witness :
    allocate_raw_public_key engT pkBad65 =
      { ret := 1, res_pk := zeroRaw, failed_msg := some msgBadLongPk, trace := [] }
    ∧ allocate_raw_public_key engT pkBad33 =
      { ret := 1, res_pk := zeroRaw, failed_msg := some msgBadCompPk, trace := [] }
    ∧ allocate_raw_public_key engT pk10 =
      { ret := 1, res_pk := zeroRaw, failed_msg := some msgBadPkLen, trace := [] }
    ∧ allocate_raw_public_key engT pkRaw =
      { ret := 0, res_pk := ⟨pkRaw.val, 64⟩, failed_msg := none, trace := [] } :=
  ⟨(c1_normalize_dispatch engT pkBad65 (by decide)).2.1 (by decide) (by decide),
   (c1_normalize_dispatch engT pkBad33 (by decide)).2.2.2.1 (by decide) (by decide) (by decide),
   (c1_normalize_dispatch engT pk10 (by decide)).2.2.2.2.2 (by decide) (by decide) (by decide),
   (c1_normalize_dispatch engT pkRaw (by decide)).1 (by decide)⟩

/-- C4: sign and verify compute their digests identically — the same
streaming hash of the same message bytes in the same order — and those are
exactly the digest bytes handed to the engine ECDSA-sign call and to the
engine ECDSA-verify call respectively. -/
theorem c4_digests_agree {σ : Type} (eng : Engine) (hp : HashPrim σ)
    (sk pk m sig : Octet) (k : Option Octet) :
    signDigest hp m = verifyDigest hp m
    ∧ (sk.len = 32 →
        (p256_sign eng hp sk m k).2 = [EngCall.signCall k sk.val (signDigest hp m)])
    ∧ ((allocate_raw_public_key eng pk).ret = 0 → sig.len = 64 →
        (p256_verify eng hp pk m sig).2 =
          (allocate_raw_public_key eng pk).trace
            ++ [EngCall.verifyCall sig.val (allocate_raw_public_key eng pk).res_pk.val
                 (signDigest hp m)]) := by
  refine ⟨rfl, ?_, ?_⟩
  · intro h
    unfold p256_sign
    rw [if_neg (by simp [h])]
    dsimp only
    split <;> rfl
  · intro hret hsig
    unfold p256_verify
    simp [hret, hsig, signDigest, verifyDigest]

/-- Witness for C4 at a concrete engine, hash primitive, key, empty
message and 64-byte signature. -/
theorem c4_digests_agree_witness :
    (p256_sign engT hpT sk32 mEmpty none).2 =
      [EngCall.signCall none sk32.val (signDigest hpT mEmpty)]
    ∧ (p256_verify engT hpT pkRaw mEmpty sig64).2 =
      (allocate_raw_public_key engT pkRaw).trace
        ++ [EngCall.verifyCall sig64.val (allocate_raw_public_key engT pkRaw).res_pk.val
             (signDigest hpT mEmpty)] :=
  ⟨(c4_digests_agree engT hpT sk32 pkRaw mEmpty sig64 none).2.1 (by decide),
   (c4_digests_agree engT hpT sk32 pkRaw mEmpty sig64 none).2.2 (by decide) (by decide)⟩

/-- C3 counterexample: with a concrete successful engine run, keygen
returns exactly one Lua value, an octet of logical length 32; no 64-byte
public-key value is among the returned values. -/
theorem c3_keygen_single_value :
    (returnedVals (p256_keygen engT).1).map Octet.len = [32] := rfl

/-- C3 amended: a successful keygen call returns only the 32-byte secret
key; the public key the engine derives is written into a local buffer that
is never pushed, so it is not returned to the caller. -/
theorem c3_keygen_returns_secret_only (eng : Engine) :
    p256_keygen eng =
      (LuaOut.ok [⟨padBuf 32 eng.genKeypair.2.1, 32⟩], [EngCall.keypairCall])
    ∧ (returnedVals (p256_keygen eng).1).map Octet.len = [32] :=
  ⟨rfl, rfl⟩

/-- C8: code bug — the source ignores the return code of p256_gen_keypair:
with an engine run whose keypair generation reports failure (code 1),
keygen still returns the secret-key octet and raises no error. -/
theorem c8_keygen_ignores_engine_failure :
    engRngFail.genKeypair.1 = 1
    ∧ p256_keygen engRngFail =
      (LuaOut.ok [⟨List.replicate 32 0, 32⟩], [EngCall.keypairCall]) :=
  ⟨rfl, rfl⟩

/-- C2: code bug — when the engine decompression routine reports failure
on a well-formed 33-byte compressed key (prefix 0x02), the normalizer
returns nonzero with failed_msg left unset, so validate (pubcheck),
verify, coordinates (pub_xy) and compress all skip THROW and return with
no result value: no decompression-failed error reaches the caller. -/
theorem c2_decompression_failure_not_surfaced :
    (allocate_raw_public_key engFailUncomp pkComp33).ret = 1
    ∧ (allocate_raw_public_key engFailUncomp pkComp33).failed_msg = none
    ∧ p256_pubcheck engFailUncomp pkComp33 =
        (LuaOut.noResult, [EngCall.uncompressCall pkComp33.val])
    ∧ (p256_verify engFailUncomp hpT pkComp33 mEmpty sig64).1 = LuaOut.noResult
    ∧ (p256_pub_xy engFailUncomp pkComp33).1 = LuaOut.noResult
    ∧ (p256_compress_pub engFailUncomp pkComp33).1 = LuaOut.noResult :=
  ⟨rfl, rfl, rfl, rfl, rfl, rfl⟩

/-- Taking the 32 logical bytes of a 33-byte coordinate buffer drops the
trailing byte. -/
theorem take32_append_zero (l : List Nat) (hl : l.length = 32) :
    (l ++ [0]).take 32 = l := by
  rw [List.take_append_eq_append_take, hl, List.take_of_length_le (le_of_eq hl)]
  simp

/-- C5: once the public key has normalized, verify throws the
invalid-signature-size message when the signature length is not 64, and
otherwise returns the engine ECDSA-verify boolean directly, so a
mismatching signature (nonzero engine code) yields the value false and
never an error. -/
theorem c5_verify_signature_result {σ : Type} (eng : Engine) (hp : HashPrim σ)
    (pk m sig : Octet)
    (hok : (allocate_raw_public_key eng pk).ret = 0) :
    (sig.len ≠ 64 → (p256_verify eng hp pk m sig).1 = LuaOut.thrown msgBadSigSize)
    ∧ (sig.len = 64 → (p256_verify eng hp pk m sig).1 =
        LuaOut.ok (eng.ecdsaVerify sig.val (allocate_raw_public_key eng pk).res_pk.val
          (verifyDigest hp m) == 0))
    ∧ (sig.len = 64 →
        eng.ecdsaVerify sig.val (allocate_raw_public_key eng pk).res_pk.val
          (verifyDigest hp m) ≠ 0 →
        (p256_verify eng hp pk m sig).1 = LuaOut.ok false) := by
  refine ⟨?_, ?_, ?_⟩
  · intro hs
    simp [p256_verify, hok, hs]
  · intro hs
    simp [p256_verify, hok, hs]
  · intro hs hv
    simp [p256_verify, hok, hs, hv]

/-- Witness for C5: with a concrete engine whose ECDSA-verify reports a
mismatch, verify yields the value false; with a 16-byte signature it
throws the invalid-signature-size message. -/
theorem c5_verify_signature_result_witness :
    (p256_verify engT hpT pkRaw mEmpty sig64).1 = LuaOut.ok false
    ∧ (p256_verify engT hpT pkRaw mEmpty sk16).1 = LuaOut.thrown msgBadSigSize :=
  ⟨(c5_verify_signature_result engT hpT pkRaw mEmpty sig64 (by decide)).2.2
      (by decide) (by decide),
   (c5_verify_signature_result engT hpT pkRaw mEmpty sk16 (by decide)).1 (by decide)⟩

/-- C6: a failure at any validation step short-circuits before the engine
sign or verify routine: sign with a 16-byte secret (or any non-32 length)
throws with an empty engine trace; verify whose normalization failed with
a message, or whose signature length is not 64, throws with no engine
ECDSA-verify call in its trace. -/
theorem c6_validation_short_circuits {σ : Type} (eng : Engine) (hp : HashPrim σ)
    (sk m k pk sig : Octet) (s : String) :
    (sk.len = 16 → p256_sign eng hp sk m (some k) = (LuaOut.thrown msgBadSkSize, []))
    ∧ (sk.len ≠ 32 → p256_sign eng hp sk m none = (LuaOut.thrown msgBadSkSize, []))
    ∧ ((allocate_raw_public_key eng pk).failed_msg = some s →
        (p256_verify eng hp pk m sig).1 = LuaOut.thrown s
        ∧ ((p256_verify eng hp pk m sig).2.any EngCall.isVerifyCall) = false)
    ∧ ((allocate_raw_public_key eng pk).ret = 0 → sig.len ≠ 64 →
        (p256_verify eng hp pk m sig).1 = LuaOut.thrown msgBadSigSize
        ∧ ((p256_verify eng hp pk m sig).2.any EngCall.isVerifyCall) = false) := by
  refine ⟨?_, ?_, ?_, ?_⟩
  · intro h
    simp [p256_sign, h]
  · intro h
    simp [p256_sign, h]
  · intro h
    have hr := alloc_msg_ret eng pk s h
    refine ⟨?_, ?_⟩
    · simp [p256_verify, hr, h]
    · simp [p256_verify, hr, h, alloc_trace_no_verify]
  · intro hr hs
    refine ⟨?_, ?_⟩
    · simp [p256_verify, hr, hs]
    · simp [p256_verify, hr, hs, alloc_trace_no_verify]

/-- Witness for C6: sign with a 16-byte secret throws the secret-size
message with no engine call; verify with a 10-byte key throws the
key-length message. -/
theorem c6_validation_short_circuits_witness :
    p256_sign engT hpT sk16 mEmpty (some eph32) = (LuaOut.thrown msgBadSkSize, [])
    ∧ (p256_verify engT hpT pk10 mEmpty sig64).1 = LuaOut.thrown msgBadPkLen :=
  ⟨(c6_validation_short_circuits engT hpT sk16 mEmpty eph32 pk10 sig64 msgBadPkLen).1
      (by decide),
   ((c6_validation_short_circuits engT hpT sk16 mEmpty eph32 pk10 sig64 msgBadPkLen).2.2.1
      (by decide)).1⟩

/-- C7: after successful normalization of a well-formed key, pub_xy
returns x and y octets with logical length exactly 32 whose logical
values (the first len bytes of each buffer) are bytes 0..31 and 32..63 of
the normalized raw key — the trailing buffer byte is outside the logical
value — and its engine-call trace is exactly the normalization trace. -/
theorem c7_pub_xy_splits (eng : Engine) (pk : Octet)
    (hwf : pk.val.length = pk.len)
    (hok : (allocate_raw_public_key eng pk).ret = 0) :
    p256_pub_xy eng pk =
      (LuaOut.ok (⟨(allocate_raw_public_key eng pk).res_pk.val.take 32 ++ [0], 32⟩,
                  ⟨((allocate_raw_public_key eng pk).res_pk.val.drop 32).take 32 ++ [0], 32⟩),
       (allocate_raw_public_key eng pk).trace)
    ∧ ((allocate_raw_public_key eng pk).res_pk.val.take 32 ++ [0]).take 32 =
        (allocate_raw_public_key eng pk).res_pk.val.take 32
    ∧ (((allocate_raw_public_key eng pk).res_pk.val.drop 32).take 32 ++ [0]).take 32 =
        ((allocate_raw_public_key eng pk).res_pk.val.drop 32).take 32 := by
  have hlen := alloc_res_len eng pk hwf hok
  refine ⟨?_, ?_, ?_⟩
  · simp [p256_pub_xy, hok]
  · exact take32_append_zero _ (by simp [hlen])
  · exact take32_append_zero _ (by simp [hlen])

/-- Witness for C7 at a concrete 64-byte raw key. -/
theorem c7_pub_xy_splits_witness :
    p256_pub_xy engT pkRaw =
      (LuaOut.ok (⟨(allocate_raw_public_key engT pkRaw).res_pk.val.take 32 ++ [0], 32⟩,
                  ⟨((allocate_raw_public_key engT pkRaw).res_pk.val.drop 32).take 32 ++ [0], 32⟩),
       (allocate_raw_public_key engT pkRaw).trace) :=
  (c7_pub_xy_splits engT pkRaw (by decide) (by decide)).1

/-- C9: the compression round trip is lossless: for a valid 64-byte raw
key whose engine compression succeeds with a well-prefixed 33-byte result
and whose engine decompression inverts it, compress returns the 33-byte
key and pub_xy on it yields the same coordinates as pub_xy on the raw key
directly. -/
theorem c9_coordinates_compress_roundtrip (eng : Engine) (pk : Octet)
    (hlen : pk.len = 64) (hwf : pk.val.length = 64)
    (hcomp : (eng.compress pk.val).1 = 0)
    (hpre : (eng.compress pk.val).2.getD 0 0 = 2 ∨ (eng.compress pk.val).2.getD 0 0 = 3)
    (hdec : eng.uncompress (padBuf 33 (eng.compress pk.val).2) = (0, pk.val)) :
    (p256_compress_pub eng pk).1 = LuaOut.ok ⟨padBuf 33 (eng.compress pk.val).2, 33⟩
    ∧ (p256_pub_xy eng ⟨padBuf 33 (eng.compress pk.val).2, 33⟩).1 =
      (p256_pub_xy eng pk).1 := by
  have htake : pk.val.take 64 = pk.val := List.take_of_length_le (le_of_eq hwf)
  have ha1 : allocate_raw_public_key eng pk =
      { ret := 0, res_pk := ⟨pk.val, 64⟩, failed_msg := none, trace := [] } := by
    simp [allocate_raw_public_key, hlen, htake]
  have hc0 : (padBuf 33 (eng.compress pk.val).2).getD 0 0 =
      (eng.compress pk.val).2.getD 0 0 :=
    padBuf_getD_zero 33 _ (by norm_num)
  have ha2 : allocate_raw_public_key eng ⟨padBuf 33 (eng.compress pk.val).2, 33⟩ =
      { ret := 0, res_pk := ⟨pk.val, 64⟩, failed_msg := none,
        trace := [EngCall.uncompressCall (padBuf 33 (eng.compress pk.val).2)] } := by
    have hp0 : (padBuf 33 (eng.compress pk.val).2).getD 0 0 = 2 ∨
        (padBuf 33 (eng.compress pk.val).2).getD 0 0 = 3 := by rw [hc0]; exact hpre
    have hcond : ¬((padBuf 33 (eng.compress pk.val).2).getD 0 0 ≠ 2
        ∧ (padBuf 33 (eng.compress pk.val).2).getD 0 0 ≠ 3) := by
      simp only [List.getD_eq_getElem?_getD] at hp0 ⊢
      rcases hp0 with h | h <;> simp [h]
    simp only [allocate_raw_public_key, if_neg hcond]
    simp [hdec, padBuf_eq_self 64 pk.val hwf]
  constructor
  · simp [p256_compress_pub, ha1, hcomp]
  · simp [p256_pub_xy, ha1, ha2]

/-- Witness for C9 with a concrete inverting engine and all-1 raw key. -/
theorem c9_coordinates_compress_roundtrip_witness :
    (p256_compress_pub engRT pkOnes).1 =
      LuaOut.ok ⟨padBuf 33 (engRT.compress pkOnes.val).2, 33⟩
    ∧ (p256_pub_xy engRT ⟨padBuf 33 (engRT.compress pkOnes.val).2, 33⟩).1 =
      (p256_pub_xy engRT pkOnes).1 :=
  c9_coordinates_compress_roundtrip engRT pkOnes (by decide) (by decide) (by decide)
    (Or.inl (by decide)) (by decide)

/-- C10: once the secret-key length check has passed, a supplied ephemeral
octet is forwarded to the engine ECDSA-sign call unchanged — this layer
checks neither its length nor its content — and the only failure this
layer then reports is the engine sign failure message. -/
theorem c10_ephemeral_forwarded {σ : Type} (eng : Engine) (hp : HashPrim σ)
    (sk m k : Octet) (hsk : sk.len = 32) :
    (p256_sign eng hp sk m (some k)).2 =
      [EngCall.signCall (some k) sk.val (signDigest hp m)]
    ∧ ((eng.ecdsaSign (some k) sk.val (signDigest hp m)).1 ≠ 0 →
        (p256_sign eng hp sk m (some k)).1 = LuaOut.thrown msgSignFail)
    ∧ ((eng.ecdsaSign (some k) sk.val (signDigest hp m)).1 = 0 →
        (p256_sign eng hp sk m (some k)).1 =
          LuaOut.ok ⟨padBuf 64 (eng.ecdsaSign (some k) sk.val (signDigest hp m)).2, 64⟩) := by
  refine ⟨?_, ?_, ?_⟩
  · unfold p256_sign
    rw [if_neg (by simp [hsk])]
    dsimp only
    split <;> rfl
  · intro h
    simp [p256_sign, hsk, h]
  · intro h
    simp [p256_sign, hsk, h]

/-- Witness for C10 with a concrete engine, 32-byte secret and ephemeral. -/
theorem c10_ephemeral_forwarded_witness :
    (p256_sign engT hpT sk32 mEmpty (some eph32)).2 =
      [EngCall.signCall (some eph32) sk32.val (signDigest hpT mEmpty)]
    ∧ (p256_sign engT hpT sk32 mEmpty (some eph32)).1 =
      LuaOut.ok ⟨padBuf 64 (engT.ecdsaSign (some eph32) sk32.val (signDigest hpT mEmpty)).2, 64⟩ :=
  ⟨(c10_ephemeral_forwarded engT hpT sk32 mEmpty eph32 (by decide)).1,
   (c10_ephemeral_forwarded engT hpT sk32 mEmpty eph32 (by decide)).2.2 (by decide)⟩
